import Mathlib

/-!
Shallow embedding of the marketplace reconciliation core of `server.mjs`
(Qeasy API server: Keepa bulk fetch, Qoo10 session manager, existence probe,
listing publisher, catalog refresh).

JavaScript strings are modelled as Lean `String`; JS string primitives that
the source uses (`trim`, `toUpperCase`, `startsWith`, `slice`, `split(",")[0]`,
truthiness-based `||` defaulting) are modelled by explicit `js*` helpers
operating on the underlying character list.  Numbers that the source keeps
non-negative (prices in yen, ship days) are `Nat`; upstream integer fields
that may be negative (Keepa statistics use -1 for "no data") are `Int`.
Network interactions are modelled by explicit outcome parameters: each
upstream call site takes the outcome the network would have produced, so a
run of the function corresponds to one execution trace of the async code.
-/

namespace Qeasy

/-! ### JS string primitives -/

/-- JS `String.prototype.toUpperCase()` restricted to ASCII (the identifier
alphabet of this program). -/
def jsToUpper (s : String) : String := ⟨s.data.map Char.toUpper⟩

/-- JS `String.prototype.trim()`: strip leading and trailing whitespace. -/
def jsTrim (s : String) : String :=
  ⟨((s.data.dropWhile Char.isWhitespace).reverse.dropWhile Char.isWhitespace).reverse⟩

/-- JS `s.startsWith(p)`. -/
def jsStartsWith (s p : String) : Bool := p.data.isPrefixOf s.data

/-- JS `s.slice(n)` for a non-negative index `n`. -/
def jsSlice (s : String) (n : Nat) : String := ⟨s.data.drop n⟩

/-- JS `s.split(",")[0]`: the characters before the first comma. -/
def splitFirstComma (s : String) : String := ⟨s.data.takeWhile (fun c => c ≠ ',')⟩

/-- JS `a || b` on strings: `a` when non-empty (truthy), else `b`. -/
def jsOrS (a b : String) : String := if a = "" then b else a

/-- JS `a || b` where `a` is a possibly-absent string (`none` models
`undefined`/missing) and the fallback is an optional string. -/
def jsOrOpt (a b : Option String) : Option String :=
  match a with
  | some s => if s = "" then b else some s
  | none => b

/-- JS truthiness of a possibly-absent string field. -/
def jsTruthyOpt : Option String → Bool
  | some s => s ≠ ""
  | none => false

/-- The regex `^[A-Z0-9]{10}$` used for canonical product identifiers. -/
def isValidAsin (s : String) : Bool :=
  s.data.length == 10 && s.data.all (fun c => c.isUpper || c.isDigit)

/-- `Array.from(new Set(xs))` for strings: deduplicate keeping the first
occurrence of each element, in insertion order. -/
def dedupFirst (l : List String) : List String :=
  l.foldl (fun acc a => if acc.contains a then acc else acc ++ [a]) []

/-- The identifier canonicalization pipeline used by `getAmazonInfos`,
`getExistingQoo10Asins` and `/amazon/bulk`:
`Array.from(new Set(asins.map(a => String(a||"").trim().toUpperCase()).filter(/^[A-Z0-9]{10}$/)))`. -/
def normalizeAsins (asins : List String) : List String :=
  dedupFirst ((asins.map (fun a => jsToUpper (jsTrim a))).filter isValidAsin)

/-! ### Configuration and catalog data model -/

/-- The environment variables the core reads (empty string models an unset
variable, matching the `|| ""` defaulting in the source). -/
structure Env where
  keepaApiKey : String
  qoo10ApiKey : String
  qoo10UserId : String
  qoo10UserPw : String
deriving DecidableEq

/-- `!QOO10_API_KEY || !QOO10_USER_ID || !QOO10_USER_PW`. -/
def credsMissing (env : Env) : Bool :=
  env.qoo10ApiKey == "" || env.qoo10UserId == "" || env.qoo10UserPw == ""

/-- An entry of `data/items.json` with the fields this core reads/writes.
Absent string fields are modelled by `""` (they are only used through JS
truthiness), absent optional fields by `none`, absent prices by `0`. -/
structure CatalogItem where
  asin : String
  name : String
  amazonPrice : Nat
  mainImage : Option String
  inStock : Bool
  qoo10Id : Option String
  updatedAt : String
deriving DecidableEq

/-- The per-identifier record produced by `getAmazonInfos`
(`{ asin, price, sellerCount, title, image, isPrime, shipDays }`, plus the
`fetchedAt` field that the degraded-mode placeholder branch adds). -/
structure AmazonInfo where
  asin : String
  price : Nat
  sellerCount : Int
  title : String
  image : Option String
  isPrime : Bool
  shipDays : Nat
  fetchedAt : Option String
deriving DecidableEq

/-! ### Keepa client (`getAmazonInfos`) -/

/-- The `stats` object of a Keepa product record (fields may be absent). -/
structure KeepaStats where
  buyBoxPrice : Option Int
  current : Option Int
  offerCountFBA : Option Int
  offerCountNew : Option Int
deriving DecidableEq

/-- A record of the `products` array of a Keepa response.  `asin` models
`String(p.asin || "")`; `hasFBA`/`fbaOffers` model the truthiness of the
corresponding fields (`!!p.hasFBA`, `!!p.fbaOffers`). -/
structure KeepaProduct where
  asin : String
  stats : Option KeepaStats
  newPrice : Option Int
  title : String
  imagesCSV : String
  hasFBA : Bool
  fbaOffers : Bool
deriving DecidableEq

/-- Outcome of one Keepa batch request:
`httpError` = `!res.ok`, `fetchError` = `fetch`/`res.json()` rejected
(both caught by the source), `ok products` = a parsed response whose
`products` field is the given array (`none` when it is not an array). -/
inductive ChunkOutcome where
  | httpError
  | fetchError
  | ok (products : Option (List KeepaProduct))
deriving DecidableEq

/-- `toYen(p)`: `p && p > 0 ? Math.round(p / 100) : 0`.  For positive `p`,
JS `Math.round(p/100)` is half-up rounding, i.e. `(p + 50) / 100` in
integer arithmetic. -/
def toYen : Option Int → Nat
  | none => 0
  | some p => if 0 < p then (p.toNat + 50) / 100 else 0

/-- JS `a || b` on non-negative numbers: `a` when non-zero, else `b`. -/
def jsOrNat (a b : Nat) : Nat := if a = 0 then b else a

/-- `const stats = p.stats || {}`. -/
def statsOf (p : KeepaProduct) : KeepaStats :=
  p.stats.getD ⟨none, none, none, none⟩

/-- `const price = buyBoxPrice || currentPrice || newPrice || 0`. -/
def derivePrice (p : KeepaProduct) : Nat :=
  jsOrNat (toYen (statsOf p).buyBoxPrice)
    (jsOrNat (toYen (statsOf p).current) (jsOrNat (toYen p.newPrice) 0))

/-- `(stats.offerCountFBA != null ? stats.offerCountFBA : stats.offerCountNew) || 0`. -/
def sellerCountOf (p : KeepaProduct) : Int :=
  match (statsOf p).offerCountFBA with
  | some v => if v = 0 then 0 else v
  | none => (statsOf p).offerCountNew.getD 0

/-- Image URL derivation from `p.imagesCSV` (first comma-separated entry,
mapped onto the Amazon image host; absent when the CSV or entry is empty). -/
def imageOf (p : KeepaProduct) : Option String :=
  if p.imagesCSV ≠ "" then
    let first := splitFirstComma p.imagesCSV
    if first ≠ "" then
      some ("https://images-na.ssl-images-amazon.com/images/I/" ++ first)
    else none
  else none

/-- `!!p.hasFBA || !!p.fbaOffers || (stats.offerCountFBA != null && stats.offerCountFBA > 0)`. -/
def isPrimeOf (p : KeepaProduct) : Bool :=
  p.hasFBA || p.fbaOffers ||
    (match (statsOf p).offerCountFBA with
     | some v => 0 < v
     | none => false)

/-- The fact pushed for one returned Keepa product record (live mode,
successful batch), given its already-uppercased non-empty identifier. -/
def factOfProduct (asin : String) (p : KeepaProduct) : AmazonInfo :=
  { asin := asin
    price := derivePrice p
    sellerCount := sellerCountOf p
    title := jsOrS p.title asin
    image := imageOf p
    isPrime := isPrimeOf p
    shipDays := if isPrimeOf p then 1 else 3
    fetchedAt := none }

/-- The placeholder fact pushed for every identifier of a failed batch
(zero price, no sellers, title = identifier, no image, prime, 3-day ship). -/
def placeholderFact (asin : String) : AmazonInfo :=
  { asin := asin
    price := 0
    sellerCount := 0
    title := asin
    image := none
    isPrime := true
    shipDays := 3
    fetchedAt := none }

/-- Degraded-mode fact for one canonical identifier: synthesized from the
matching catalog item when one exists, otherwise a placeholder carrying
`fetchedAt = now`. -/
def degradedFact (items : List CatalogItem) (nowIso : String) (asin : String) : AmazonInfo :=
  match items.find? (fun i => jsToUpper i.asin == asin) with
  | some it =>
      { asin := asin
        price := it.amazonPrice
        sellerCount := 5
        title := jsOrS it.name asin
        image := it.mainImage
        isPrime := true
        shipDays := 1
        fetchedAt := none }
  | none =>
      { asin := asin
        price := 0
        sellerCount := 0
        title := asin
        image := none
        isPrime := true
        shipDays := 3
        fetchedAt := some nowIso }

/-- Fuel-indexed chunking: `chunksOfAux n fuel l` splits `l` into slices of
`n` as long as fuel remains (the caller supplies `fuel = l.length`, which
always suffices for `n ≥ 1`). -/
def chunksOfAux (n : Nat) : Nat → List α → List (List α)
  | 0, _ => []
  | _, [] => []
  | fuel + 1, a :: t => ((a :: t).take n) :: chunksOfAux n fuel ((a :: t).drop n)

/-- The batching loop structure `for (let i = 0; i < uniqueAsins.length; i += chunkSize)`. -/
def chunksOf (n : Nat) (l : List α) : List (List α) := chunksOfAux n l.length l

/-- Facts pushed for the products of one successful batch: one per record
with a non-empty uppercased identifier, records without one are skipped. -/
def productFacts : List KeepaProduct → List AmazonInfo
  | [] => []
  | p :: rest =>
      let asin := jsToUpper p.asin
      if asin = "" then productFacts rest
      else factOfProduct asin p :: productFacts rest

/-- The live-mode batch loop: chunk `i` contributes placeholder facts when
its request failed, nothing when the response has no `products` array, and
`productFacts` of the returned records otherwise. -/
def liveFacts (outcome : Nat → ChunkOutcome) : Nat → List (List String) → List AmazonInfo
  | _, [] => []
  | i, chunk :: rest =>
      (match outcome i with
       | .httpError => chunk.map placeholderFact
       | .fetchError => chunk.map placeholderFact
       | .ok none => []
       | .ok (some products) => productFacts products)
      ++ liveFacts outcome (i + 1) rest

/-- The contribution of one batch to the live-mode results, as a function
of the batch's request outcome and of the batch's identifiers: a failed
request contributes one placeholder fact per identifier of the batch, a
response without a `products` array contributes nothing, and a successful
response contributes the facts of its returned records (this is the body
of one iteration of the batch loop). -/
def chunkFacts : ChunkOutcome → List String → List AmazonInfo
  | .httpError, chunk => chunk.map placeholderFact
  | .fetchError, chunk => chunk.map placeholderFact
  | .ok none, _ => []
  | .ok (some products), _ => productFacts products

/-- `getAmazonInfos(asins)`.  `items` is the `items.json` snapshot read in
degraded mode, `nowIso` the timestamp taken there, and `outcome i` the
result of the request for batch `i`. -/
def getAmazonInfos (env : Env) (items : List CatalogItem) (nowIso : String)
    (outcome : Nat → ChunkOutcome) (asins : List String) : List AmazonInfo :=
  let uniqueAsins := normalizeAsins asins
  if uniqueAsins.isEmpty then []
  else if env.keepaApiKey == "" then
    uniqueAsins.map (degradedFact items nowIso)
  else
    liveFacts outcome 0 (chunksOf 100 uniqueAsins)

/-! ### Qoo10 session manager (`getQoo10SellerAuthKey`) -/

/-- The `qoo10AuthCache` record (`{ key, expiresAt }`, `expiresAt` in epoch ms). -/
structure AuthCache where
  key : String
  expiresAt : Nat
deriving DecidableEq

/-- The initial value of `qoo10AuthCache`. -/
def initialAuthCache : AuthCache := ⟨"", 0⟩

/-- Failure modes of `getQoo10SellerAuthKey`: the missing-credentials throw,
the HTTP-status throw and the non-zero-ResultCode/empty-ResultObject throw. -/
inductive AuthErr where
  | credentialsMissing
  | httpError
  | authFailed
deriving DecidableEq

/-- One call of `getQoo10SellerAuthKey` at time `now` (ms).  `exchange` is
the outcome the authentication round-trip would produce if performed
(token on success).  Returns the token, the cache after the call and a flag
recording whether the authentication exchange was performed. -/
def getQoo10SellerAuthKey (env : Env) (cache : AuthCache) (now : Nat)
    (exchange : Except AuthErr String) : Except AuthErr (String × AuthCache × Bool) :=
  if cache.key ≠ "" ∧ now < cache.expiresAt then
    .ok (cache.key, cache, false)
  else if credsMissing env then
    .error .credentialsMissing
  else
    match exchange with
    | .error e => .error e
    | .ok sellerKey => .ok (sellerKey, ⟨sellerKey, now + 45 * 60 * 1000⟩, true)

/-- A sequence of calls to `getQoo10SellerAuthKey`, threading the cache:
each list element is the call time and the exchange outcome the network
would produce for that call.  A failed call leaves the cache unchanged. -/
def runAuthCalls (env : Env) : AuthCache → List (Nat × Except AuthErr String) →
    List (Except AuthErr String) × AuthCache
  | cache, [] => ([], cache)
  | cache, (now, ex) :: rest =>
      match getQoo10SellerAuthKey env cache now ex with
      | .error e =>
          ((.error e) :: (runAuthCalls env cache rest).1, (runAuthCalls env cache rest).2)
      | .ok r =>
          ((.ok r.1) :: (runAuthCalls env r.2.1 rest).1, (runAuthCalls env r.2.1 rest).2)

/-- Recognizer for the missing-credentials failure of a session call. -/
def isCredsMissingErr : Except AuthErr String → Bool
  | .error .credentialsMissing => true
  | _ => false

/-! ### Qoo10 existence probe (`getExistingQoo10Asins`) -/

/-- A record of `ResultObject.Items` of `ItemsLookup.GetAllGoodsInfo`
(only `SellerCode` is consumed; `none` models an absent/falsy field). -/
structure GoodsInfo where
  sellerCode : Option String
deriving DecidableEq

/-- Outcome of fetching one catalog page: `throws` = the `fetch` or
`res.json()` promise rejected (no try/catch in the source, so this
propagates), `httpError` = `!res.ok` (logged, `break`), `ok items` = parsed
response whose `ResultObject?.Items` is the given array (`none` when it is
missing or not an array). -/
inductive PageOutcome where
  | throws
  | httpError
  | ok (items : Option (List GoodsInfo))
deriving DecidableEq

/-- `found.add(a)` on a JS `Set` materialized as an insertion-ordered
duplicate-free list. -/
def addToSet (found : List String) (a : String) : List String :=
  if found.contains a then found else found ++ [a]

/-- Processing of one returned listing: uppercase its seller code, skip it
when empty, strip the `AMZ-` convention and test target membership, else
accept the legacy seller-code-equals-identifier case. -/
def scanListing (targetSet : List String) (found : List String) (gd : GoodsInfo) : List String :=
  let sc := jsToUpper (gd.sellerCode.getD "")
  if sc = "" then found
  else if jsStartsWith sc "AMZ-" then
    let asin := jsSlice sc 4
    if targetSet.contains asin then addToSet found asin else found
  else if targetSet.contains sc then addToSet found sc else found

/-- The `for (const gd of items)` scan of one page. -/
def scanPage (targetSet : List String) (found : List String) (items : List GoodsInfo) : List String :=
  items.foldl (scanListing targetSet) found

/-- The `while (page <= maxPage && found.size < targetSet.size)` pagination
loop, fuel-indexed (the caller supplies fuel 10 = `maxPage`, which always
suffices since `page` starts at 1).  `.error ()` models an exception
propagating out of the loop. -/
def probeLoop (pages : Nat → PageOutcome) (targetSet : List String) :
    Nat → Nat → List String → Except Unit (List String)
  | 0, _, found => .ok found
  | fuel + 1, page, found =>
      if page ≤ 10 ∧ found.length < targetSet.length then
        match pages page with
        | .throws => .error ()
        | .httpError => .ok found
        | .ok none => .ok found
        | .ok (some items) =>
            if items.isEmpty then .ok found
            else probeLoop pages targetSet fuel (page + 1) (scanPage targetSet found items)
      else .ok found

/-- `getExistingQoo10Asins(asins)`.  `items` is the `items.json` snapshot
used in degraded mode; `auth` is the outcome of the
`getQoo10SellerAuthKey()` await (its token value does not influence the
probe); `pages p` is the outcome of fetching catalog page `p`.
`.error ()` models an exception propagating to the caller. -/
def getExistingQoo10Asins (env : Env) (items : List CatalogItem)
    (auth : Except Unit Unit) (pages : Nat → PageOutcome)
    (asins : List String) : Except Unit (List String) :=
  let target := normalizeAsins asins
  if target.isEmpty then .ok []
  else if credsMissing env then
    let set := (items.filter (fun it => jsTruthyOpt it.qoo10Id)).map (fun it => jsToUpper it.asin)
    .ok (target.filter (fun asin => set.contains asin))
  else
    match auth with
    | .error _ => .error ()
    | .ok _ => probeLoop pages target 10 1 []

/-! ### Listing publisher (`POST /qoo10/create-listings`) -/

/-- One element of the request's `items` array (fields the handler reads).
`asin` models `String(payload.asin || "")`; optional fields model
absent/falsy values as `none`. -/
structure PublishPayload where
  asin : String
  price : Nat
  title : String
  imageUrl : Option String
  categoryNo : Option String
  shippingCode : Option String
  stock : Option Nat
  jan : Option String
deriving DecidableEq

/-- One element of the handler's `results` array. -/
structure PublishResult where
  asin : String
  ok : Bool
  qoo10ItemCode : Option String
  message : String
  code : Option String
deriving DecidableEq

def msgInvalidAsin : String := "ASIN形式が不正です。"
def msgLocalOnly : String := "Qoo10 API未設定のためローカルのみ更新しました。（テスト用）"
def msgCreated : String := "Qoo10への出品が完了しました。"
def msgCreateFailed : String := "Qoo10出品API呼び出し中にエラーが発生しました。"

/-- `new Map(items.map((it, idx) => [String(it.asin||"").toUpperCase(), idx]))`:
for duplicate keys the later index wins. -/
def buildAsinIndex (items : List CatalogItem) : String → Option Nat := fun a =>
  ((items.enum.filter (fun p => jsToUpper p.2.asin == a)).getLast?).map (fun p => p.1)

/-- The catalog upsert shared by the degraded and live success branches:
update `qoo10Id`/`updatedAt` in place when the original index map knows the
identifier, else push a fresh entry. -/
def upsertItem (asinIndex : String → Option Nat) (items : List CatalogItem)
    (asin : String) (payload : PublishPayload) (code now : String) : List CatalogItem :=
  match asinIndex asin with
  | some idx =>
      match items.get? idx with
      | some it => items.set idx { it with qoo10Id := some code, updatedAt := now }
      | none => items
  | none =>
      items ++ [{ asin := asin
                  name := jsOrS payload.title asin
                  amazonPrice := payload.price
                  mainImage := payload.imageUrl
                  inStock := true
                  qoo10Id := some code
                  updatedAt := now }]

/-- The per-item result record of the handler, as a function of the item's
payload and of the outcome `oracle n` that the `qoo10CreateItem` call for
the `n`-th payload would produce (token string on success, the thrown
error's message on failure; an empty message models a falsy `e?.message`). -/
def itemResult (env : Env) (oracle : Nat → Except String String)
    (n : Nat) (payload : PublishPayload) : PublishResult :=
  let asin := jsToUpper payload.asin
  if ¬ isValidAsin asin then
    ⟨asin, false, none, msgInvalidAsin, some "INVALID_ASIN"⟩
  else if credsMissing env then
    ⟨asin, true, some ("LOCAL-" ++ asin), msgLocalOnly, none⟩
  else
    match oracle n with
    | .ok code => ⟨asin, true, some code, msgCreated, none⟩
    | .error msg => ⟨asin, false, none, jsOrS msg msgCreateFailed, some "CREATE_FAILED"⟩

/-- The `for (const payload of itemsPayload)` loop of the handler: `n` is
the position of the current payload, `items` the current catalog list.
Returns the results array and the final catalog list. -/
def createListingsLoop (env : Env) (oracle : Nat → Except String String)
    (now : String) (asinIndex : String → Option Nat) :
    Nat → List CatalogItem → List PublishPayload → List PublishResult × List CatalogItem
  | _, items, [] => ([], items)
  | n, items, payload :: rest =>
      let asin := jsToUpper payload.asin
      if ¬ isValidAsin asin then
        let (rs, fin) := createListingsLoop env oracle now asinIndex (n + 1) items rest
        (⟨asin, false, none, msgInvalidAsin, some "INVALID_ASIN"⟩ :: rs, fin)
      else if credsMissing env then
        let fakeCode := "LOCAL-" ++ asin
        let items' := upsertItem asinIndex items asin payload fakeCode now
        let (rs, fin) := createListingsLoop env oracle now asinIndex (n + 1) items' rest
        (⟨asin, true, some fakeCode, msgLocalOnly, none⟩ :: rs, fin)
      else
        match oracle n with
        | .ok code =>
            let items' := upsertItem asinIndex items asin payload code now
            let (rs, fin) := createListingsLoop env oracle now asinIndex (n + 1) items' rest
            (⟨asin, true, some code, msgCreated, none⟩ :: rs, fin)
        | .error msg =>
            let (rs, fin) := createListingsLoop env oracle now asinIndex (n + 1) items rest
            (⟨asin, false, none, jsOrS msg msgCreateFailed, some "CREATE_FAILED"⟩ :: rs, fin)

/-- `POST /qoo10/create-listings`: build the index over the loaded catalog,
run the per-payload loop, return the results and the saved catalog. -/
def createListings (env : Env) (oracle : Nat → Except String String)
    (now : String) (items0 : List CatalogItem) (payloads : List PublishPayload) :
    List PublishResult × List CatalogItem :=
  createListingsLoop env oracle now (buildAsinIndex items0) 0 items0 payloads

/-! ### Catalog refresh (`POST /items/refresh`) -/

/-- `new Map(infos.map(i => [i.asin, i])).get(asin)`: for duplicate keys the
later record wins. -/
def lookupInfo (infos : List AmazonInfo) (asin : String) : Option AmazonInfo :=
  (infos.filter (fun i => i.asin == asin)).getLast?

/-- The in-place update applied to a catalog entry whose identifier has a
matching fetched fact. -/
def updateEntry (it : CatalogItem) (asin : String) (info : AmazonInfo) (now : String) : CatalogItem :=
  { it with
    asin := asin
    name := jsOrS it.name (jsOrS info.title asin)
    amazonPrice := if info.price ≠ 0 then info.price else it.amazonPrice
    mainImage := jsOrOpt info.image it.mainImage
    inStock := 0 < info.price
    updatedAt := now }

/-- The `items.map(...)` body of the refresh handler with its
`updatedCount++` side effect, as a fold accumulating the rebuilt list and
the counter. -/
def refreshItems (items : List CatalogItem) (infos : List AmazonInfo) (now : String) :
    List CatalogItem × Nat :=
  items.foldl
    (fun acc it =>
      let asin := jsToUpper it.asin
      match lookupInfo infos asin with
      | none => (acc.1 ++ [it], acc.2)
      | some info => (acc.1 ++ [updateEntry it asin info now], acc.2 + 1))
    ([], 0)

/-- The per-entry view of the refresh merge: an entry with a matching
fetched fact is updated in place, an entry without one is returned
unchanged. -/
def refreshOne (infos : List AmazonInfo) (now : String) (it : CatalogItem) : CatalogItem :=
  match lookupInfo infos (jsToUpper it.asin) with
  | none => it
  | some info => updateEntry it (jsToUpper it.asin) info now

/-- The identifier list the refresh handler fetches:
`Array.from(new Set(items.map(it => String(it.asin||"").toUpperCase()).filter(/^[A-Z0-9]{10}$/)))`
(note: no `trim` on this path). -/
def refreshAsins (items : List CatalogItem) : List String :=
  dedupFirst ((items.map (fun it => jsToUpper it.asin)).filter isValidAsin)

/-- `POST /items/refresh`: short-circuit on an empty catalog, else fetch the
facts for the catalog's identifiers and merge them in. -/
def refreshHandler (env : Env) (items : List CatalogItem) (nowIso now : String)
    (outcome : Nat → ChunkOutcome) : List CatalogItem × Nat :=
  if items.isEmpty then (items, 0)
  else refreshItems items (getAmazonInfos env items nowIso outcome (refreshAsins items)) now

/-! ### Sample inputs used by witnesses and counterexamples -/

/-- Environment with all upstream credentials configured (live mode). -/
def envLive : Env := ⟨"KEEPAKEY", "QKEY", "QUSER", "QPW"⟩

/-- Environment without the Keepa key (source client degraded mode). -/
def envNoKeepa : Env := ⟨"", "QKEY", "QUSER", "QPW"⟩

/-- Environment with a missing Qoo10 secret (destination degraded mode). -/
def envNoQoo10 : Env := ⟨"KEEPAKEY", "QKEY", "", "QPW"⟩

def sampleItem : CatalogItem :=
  ⟨"B000000001", "OLD", 5, none, false, none, "2024-01-01 00:00:00"⟩

def sampleInfo : AmazonInfo :=
  ⟨"B000000001", 100, 1, "NEW", some "img", true, 1, none⟩

def sampleProduct : KeepaProduct :=
  ⟨"B000000001", some ⟨some 5000, some 3000, none, none⟩, none, "T", "", false, false⟩

def sampleProductNoBuyBox : KeepaProduct :=
  ⟨"B000000001", some ⟨none, some 3000, none, none⟩, none, "T", "", false, false⟩

def sampleProductNoStats : KeepaProduct :=
  ⟨"B000000001", none, some 7000, "T", "", false, false⟩

def samplePayloadBad : PublishPayload := ⟨"bad", 1, "t", none, none, none, none, none⟩

def samplePayloadGood : PublishPayload := ⟨"b000000001", 2, "u", none, none, none, none, none⟩

/-- Page oracle for the existence-probe example: page 1 holds the two sample
listings, every later page is empty. -/
def pagesC8 : Nat → PageOutcome := fun p =>
  if p = 1 then .ok (some [⟨some "AMZ-B000000001"⟩, ⟨some "OTHER-X"⟩]) else .ok (some [])

/-! ### Helper lemmas -/

theorem charIsPrefixOf_iff (l : List Char) : ∀ (s : List Char),
    (l.isPrefixOf s) = true ↔ ∃ t, s = l ++ t := by
  induction l with
  | nil => intro s; simp [List.isPrefixOf]
  | cons a l ih =>
    intro s
    cases s with
    | nil => simp [List.isPrefixOf]
    | cons b s =>
      simp only [List.isPrefixOf, Bool.and_eq_true, beq_iff_eq, ih s]
      constructor
      · rintro ⟨rfl, t, rfl⟩
        exact ⟨t, rfl⟩
      · rintro ⟨t, ht⟩
        rw [List.cons_append] at ht
        cases ht
        exact ⟨rfl, t, rfl⟩

theorem string_data_inj {s t : String} (h : s.data = t.data) : s = t := by
  cases s
  cases t
  exact congrArg String.mk (by simpa using h)

theorem string_data_append (s t : String) : (s ++ t).data = s.data ++ t.data := rfl

theorem isValidAsin_length {s : String} (h : isValidAsin s = true) : s.data.length = 10 := by
  simp only [isValidAsin, Bool.and_eq_true, beq_iff_eq] at h
  exact h.1

theorem isValidAsin_no_hyphen {s : String} (h : isValidAsin s = true) : '-' ∉ s.data := by
  intro hmem
  simp only [isValidAsin, Bool.and_eq_true, List.all_eq_true] at h
  have := h.2 '-' hmem
  simp at this

theorem mem_foldl_dedup {a : String} : ∀ (l acc : List String),
    a ∈ l.foldl (fun acc x => if acc.contains x then acc else acc ++ [x]) acc →
    a ∈ acc ∨ a ∈ l := by
  intro l
  induction l with
  | nil => intro acc h; exact Or.inl h
  | cons x t ih =>
    intro acc h
    simp only [List.foldl_cons] at h
    by_cases hc : acc.contains x = true
    · rw [if_pos hc] at h
      rcases ih _ h with h' | h'
      · exact Or.inl h'
      · exact Or.inr (List.mem_cons_of_mem _ h')
    · rw [if_neg hc] at h
      rcases ih _ h with h' | h'
      · rcases List.mem_append.mp h' with h'' | h''
        · exact Or.inl h''
        · simp at h''
          subst h''
          exact Or.inr (List.mem_cons_self _ _)
      · exact Or.inr (List.mem_cons_of_mem _ h')

theorem mem_dedupFirst {a : String} {l : List String} (h : a ∈ dedupFirst l) : a ∈ l := by
  rcases mem_foldl_dedup l [] h with h' | h'
  · simp at h'
  · exact h'

theorem mem_normalizeAsins_valid {a : String} {asins : List String}
    (h : a ∈ normalizeAsins asins) : isValidAsin a = true :=
  (List.mem_filter.mp (mem_dedupFirst h)).2

/-! ### Claim theorems -/

/-- C5: the session manager returns the cached token without an
authentication exchange while the recorded expiry lies in the future (the
cache is left unchanged, so two such calls return the identical token); a
call outside the cached window with credentials configured performs exactly
one authentication exchange and caches the returned token with an expiry
45 minutes after the acquisition time; and every successfully returned
token is the key of the resulting cache with its recorded expiry strictly
in the future of the call time (a token is never returned at or past its
recorded expiry). -/
theorem getQoo10SellerAuthKey_session_cache :
    (∀ (env : Env) (cache : AuthCache) (now : Nat) (ex : Except AuthErr String),
       cache.key ≠ "" → now < cache.expiresAt →
       getQoo10SellerAuthKey env cache now ex = .ok (cache.key, cache, false))
    ∧ (∀ (env : Env) (cache : AuthCache) (now : Nat) (tok : String),
       ¬(cache.key ≠ "" ∧ now < cache.expiresAt) → credsMissing env = false →
       getQoo10SellerAuthKey env cache now (.ok tok) =
         .ok (tok, ⟨tok, now + 45 * 60 * 1000⟩, true))
    ∧ (∀ (env : Env) (cache : AuthCache) (now : Nat) (ex : Except AuthErr String)
         (k : String) (c : AuthCache) (b : Bool),
       getQoo10SellerAuthKey env cache now ex = .ok (k, c, b) →
       k = c.key ∧ now < c.expiresAt) := by
  refine ⟨?_, ?_, ?_⟩
  · intro env cache now ex h1 h2
    simp [getQoo10SellerAuthKey, h1, h2]
  · intro env cache now tok h hc
    simp [getQoo10SellerAuthKey, h, hc]
  · intro env cache now ex k c b h
    unfold getQoo10SellerAuthKey at h
    by_cases hcache : cache.key ≠ "" ∧ now < cache.expiresAt
    · rw [if_pos hcache] at h
      simp only [Except.ok.injEq, Prod.mk.injEq] at h
      obtain ⟨h1, h2, -⟩ := h
      subst h1
      subst h2
      exact ⟨rfl, hcache.2⟩
    · rw [if_neg hcache] at h
      by_cases hm : credsMissing env = true
      · simp [hm] at h
      · simp only [hm, if_false, Bool.false_eq_true] at h
        cases ex with
        | error e => simp at h
        | ok tok =>
          simp only [Except.ok.injEq, Prod.mk.injEq] at h
          obtain ⟨h1, h2, -⟩ := h
          subst h1
          subst h2
          refine ⟨rfl, ?_⟩
          show now < now + 45 * 60 * 1000
          omega

/-- C5 witness: concrete instantiations of the three conjuncts. -/
theorem getQoo10SellerAuthKey_session_cache_witness :
    getQoo10SellerAuthKey envLive ⟨"TOK", 100⟩ 50 (Except.ok "NEW") =
      Except.ok ("TOK", ⟨"TOK", 100⟩, false)
    ∧ getQoo10SellerAuthKey envLive ⟨"TOK", 100⟩ 200 (Except.ok "NEW") =
      Except.ok ("NEW", ⟨"NEW", 200 + 45 * 60 * 1000⟩, true)
    ∧ ("TOK" = (⟨"TOK", 100⟩ : AuthCache).key ∧ 50 < (⟨"TOK", 100⟩ : AuthCache).expiresAt) := by
  have h1 := getQoo10SellerAuthKey_session_cache.1 envLive ⟨"TOK", 100⟩ 50 (Except.ok "NEW")
    (by decide) (by decide)
  have h2 := getQoo10SellerAuthKey_session_cache.2.1 envLive ⟨"TOK", 100⟩ 200 "NEW"
    (by decide) (by decide)
  have h3 := getQoo10SellerAuthKey_session_cache.2.2 envLive ⟨"TOK", 100⟩ 50 (Except.ok "NEW")
    "TOK" ⟨"TOK", 100⟩ false h1
  exact ⟨h1, h2, h3⟩

/-- Credentials missing and an empty cache key: the call throws the
missing-credentials error without touching the cache. -/
theorem authKey_missing (env : Env) (now : Nat) (ex : Except AuthErr String)
    (h : credsMissing env = true) :
    getQoo10SellerAuthKey env initialAuthCache now ex = .error .credentialsMissing := by
  simp [getQoo10SellerAuthKey, initialAuthCache, h]

/-- C6: starting from the program's initial (empty) session cache, every
call of a sequence of `getQoo10SellerAuthKey` calls made under an
environment with a missing Qoo10 secret fails with the
credentials-missing error — regardless of call times or of what the
authentication endpoint would have answered, so regardless of any cache
state reachable under that environment. -/
theorem getQoo10SellerAuthKey_credentials_missing :
    ∀ (env : Env) (calls : List (Nat × Except AuthErr String)),
    credsMissing env = true →
    ((runAuthCalls env initialAuthCache calls).1.all isCredsMissingErr) = true := by
  intro env calls h
  induction calls with
  | nil => rfl
  | cons c rest ih =>
    obtain ⟨now, ex⟩ := c
    simp only [runAuthCalls, authKey_missing env now ex h]
    simp only [List.all_cons, Bool.and_eq_true]
    exact ⟨rfl, ih⟩

/-- C6 witness: a concrete two-call sequence under a concrete environment
with an empty Qoo10 user id. -/
theorem getQoo10SellerAuthKey_credentials_missing_witness :
    ((runAuthCalls envNoQoo10 initialAuthCache
        [(0, Except.ok "T"), (999999999999, Except.ok "U")]).1.all isCredsMissingErr) = true :=
  getQoo10SellerAuthKey_credentials_missing envNoQoo10
    [(0, Except.ok "T"), (999999999999, Except.ok "U")] (by decide)

/-- C7: price derivation.  `toYen` maps absent or non-positive minor-unit
amounts to zero and positive amounts to half-up-rounded division by 100;
`derivePrice` picks the first non-zero value among buy-box price, current
price and new-condition price; on stats `buyBoxPrice = 5000`,
`current = 3000` the derived price is 50, not 30. -/
theorem derivePrice_priority :
    (toYen none = 0 ∧ toYen (some 5000) = 50 ∧ toYen (some 150) = 2
      ∧ toYen (some 149) = 1 ∧ toYen (some 50) = 1)
    ∧ (∀ v : Int, v ≤ 0 → toYen (some v) = 0)
    ∧ (∀ p : KeepaProduct, toYen (statsOf p).buyBoxPrice ≠ 0 →
        derivePrice p = toYen (statsOf p).buyBoxPrice)
    ∧ (∀ p : KeepaProduct, toYen (statsOf p).buyBoxPrice = 0 →
        toYen (statsOf p).current ≠ 0 → derivePrice p = toYen (statsOf p).current)
    ∧ (∀ p : KeepaProduct, toYen (statsOf p).buyBoxPrice = 0 →
        toYen (statsOf p).current = 0 → derivePrice p = toYen p.newPrice)
    ∧ (derivePrice sampleProduct = 50 ∧ (30 : Nat) ≠ 50) := by
  refine ⟨by decide, ?_, ?_, ?_, ?_, by decide⟩
  · intro v hv
    simp [toYen, not_lt.mpr hv]
  · intro p h
    simp [derivePrice, jsOrNat, h]
  · intro p h1 h2
    simp [derivePrice, jsOrNat, h1, h2]
  · intro p h1 h2
    simp only [derivePrice, jsOrNat, h1, h2, if_pos]
    split
    · rename_i h3
      simp [h3]
    · rfl

/-- C7 witness: concrete instantiations of the hypothesized conjuncts. -/
theorem derivePrice_priority_witness :
    toYen (some (-100)) = 0
    ∧ derivePrice sampleProduct = toYen (statsOf sampleProduct).buyBoxPrice
    ∧ derivePrice sampleProductNoBuyBox = toYen (statsOf sampleProductNoBuyBox).current
    ∧ derivePrice sampleProductNoStats = toYen sampleProductNoStats.newPrice := by
  have h1 := derivePrice_priority.2.1 (-100) (by decide)
  have h2 := derivePrice_priority.2.2.1 sampleProduct (by decide)
  have h3 := derivePrice_priority.2.2.2.1 sampleProductNoBuyBox (by decide) (by decide)
  have h4 := derivePrice_priority.2.2.2.2.1 sampleProductNoStats (by decide) (by decide)
  exact ⟨h1, h2, h3, h4⟩

theorem degradedFact_asin (items : List CatalogItem) (nowIso a : String) :
    (degradedFact items nowIso a).asin = a := by
  cases h : items.find? (fun i => jsToUpper i.asin == a) with
  | none => simp [degradedFact, h]
  | some it => simp [degradedFact, h]

theorem liveFacts_all_fail (outcome : Nat → ChunkOutcome)
    (hfail : ∀ j, outcome j = ChunkOutcome.httpError ∨ outcome j = ChunkOutcome.fetchError) :
    ∀ (fuel : Nat) (l : List String) (i : Nat), l.length ≤ fuel →
    liveFacts outcome i (chunksOfAux 100 fuel l) = l.map placeholderFact := by
  intro fuel
  induction fuel with
  | zero =>
    intro l i hl
    have : l = [] := List.length_eq_zero.mp (Nat.le_zero.mp hl)
    subst this
    rfl
  | succ fuel ih =>
    intro l i hl
    cases l with
    | nil => rfl
    | cons a t =>
      have hdrop : ((a :: t).drop 100).length ≤ fuel := by
        rw [List.length_drop]
        simp only [List.length_cons] at hl ⊢
        omega
      show liveFacts outcome i (((a :: t).take 100) :: chunksOfAux 100 fuel ((a :: t).drop 100))
        = (a :: t).map placeholderFact
      simp only [liveFacts]
      rcases hfail i with h | h <;>
        rw [h] <;>
        rw [ih _ (i + 1) hdrop] <;>
        rw [← List.map_append, List.take_append_drop]

theorem liveFacts_eq_flatten (outcome : Nat → ChunkOutcome) :
    ∀ (chunks : List (List String)) (i : Nat),
    liveFacts outcome i chunks =
      ((List.enumFrom i chunks).map (fun p => chunkFacts (outcome p.1) p.2)).flatten := by
  intro chunks
  induction chunks with
  | nil => intro i; rfl
  | cons c rest ih =>
    intro i
    simp only [liveFacts, List.enumFrom, List.map_cons, List.flatten_cons]
    rw [ih]
    congr 1
    cases h : outcome i with
    | httpError => rfl
    | fetchError => rfl
    | ok products => cases products <;> rfl

/-- C1 (amended): in degraded mode `getAmazonInfos` returns exactly one
fact per requested canonical identifier (the returned identifiers are
exactly the canonicalized input, in order).  In live mode the result is
the concatenation, over the 100-sized batches of the canonicalized input,
of each batch's own contribution — so batch failures are isolated even in
mixed traces: a failed batch contributes exactly one placeholder fact
(zero price, 3-day ship, expedited = true) per identifier of that batch,
while a successful batch contributes exactly one fact per returned product
record with a resolvable identifier, carrying that record's identifier
(not one per requested identifier — see the counterexample), and a
successful response without a `products` array contributes nothing.  When
every batch fails the live result is therefore exactly one placeholder
fact per requested canonical identifier. -/
theorem getAmazonInfos_completeness :
    (∀ (env : Env) (items : List CatalogItem) (nowIso : String)
       (outcome : Nat → ChunkOutcome) (asins : List String),
       env.keepaApiKey = "" →
       (getAmazonInfos env items nowIso outcome asins).map (fun f => f.asin) =
         normalizeAsins asins)
    ∧ (∀ (env : Env) (items : List CatalogItem) (nowIso : String)
       (outcome : Nat → ChunkOutcome) (asins : List String),
       env.keepaApiKey ≠ "" →
       getAmazonInfos env items nowIso outcome asins =
         (((chunksOf 100 (normalizeAsins asins)).enum.map
             (fun p => chunkFacts (outcome p.1) p.2)).flatten))
    ∧ (∀ (chunk : List String) (oc : ChunkOutcome),
       oc = ChunkOutcome.httpError ∨ oc = ChunkOutcome.fetchError →
       chunkFacts oc chunk = chunk.map placeholderFact)
    ∧ (∀ (chunk : List String) (products : List KeepaProduct),
       chunkFacts (ChunkOutcome.ok (some products)) chunk = productFacts products)
    ∧ (∀ products : List KeepaProduct,
       (productFacts products).map (fun f => f.asin) =
         (products.map (fun p => jsToUpper p.asin)).filter (fun s => s ≠ ""))
    ∧ (∀ (env : Env) (items : List CatalogItem) (nowIso : String)
       (outcome : Nat → ChunkOutcome) (asins : List String),
       env.keepaApiKey ≠ "" →
       (∀ j, outcome j = ChunkOutcome.httpError ∨ outcome j = ChunkOutcome.fetchError) →
       getAmazonInfos env items nowIso outcome asins =
         (normalizeAsins asins).map placeholderFact) := by
  refine ⟨?_, ?_, ?_, fun chunk products => rfl, ?_, ?_⟩
  · intro env items nowIso outcome asins h
    unfold getAmazonInfos
    by_cases he : (normalizeAsins asins).isEmpty = true
    · rw [if_pos he]
      rw [List.isEmpty_iff] at he
      rw [he]
      rfl
    · rw [if_neg he, if_pos (by simp [h])]
      rw [List.map_map]
      have hcomp : ((fun f : AmazonInfo => f.asin) ∘ degradedFact items nowIso) =
          fun a => a := by
        funext a
        exact degradedFact_asin items nowIso a
      rw [hcomp]
      simp
  · intro env items nowIso outcome asins h
    unfold getAmazonInfos
    by_cases he : (normalizeAsins asins).isEmpty = true
    · rw [if_pos he]
      rw [List.isEmpty_iff] at he
      rw [he]
      rfl
    · rw [if_neg he, if_neg (by simp [h])]
      exact liveFacts_eq_flatten outcome (chunksOf 100 (normalizeAsins asins)) 0
  · intro chunk oc h
    rcases h with rfl | rfl <;> rfl
  · intro products
    induction products with
    | nil => rfl
    | cons p rest ih =>
      by_cases hz : jsToUpper p.asin = ""
      · simp only [productFacts, hz, if_pos, List.map_cons, List.filter_cons]
        simp [hz, ih]
      · simp only [productFacts, hz, if_neg, List.map_cons, List.filter_cons]
        simp [hz, ih, factOfProduct]
  · intro env items nowIso outcome asins h hfail
    unfold getAmazonInfos
    by_cases he : (normalizeAsins asins).isEmpty = true
    · rw [if_pos he]
      rw [List.isEmpty_iff] at he
      rw [he]
      rfl
    · rw [if_neg he, if_neg (by simp [h])]
      exact liveFacts_all_fail outcome hfail _ _ 0 le_rfl

/-- C1 counterexample: live mode, one requested canonical identifier, the
batch call succeeds (HTTP 200) but the response carries an empty
`products` array — `getAmazonInfos` returns no fact at all for the
requested identifier, so it does not return exactly one fact per
identifier in live mode. -/
theorem getAmazonInfos_completeness_cex :
    getAmazonInfos envLive [] "" (fun _ => ChunkOutcome.ok (some [])) ["B000000001"] = []
    ∧ normalizeAsins ["B000000001"] = ["B000000001"] := by
  constructor <;> rfl

/-- C1 witness: degraded-mode completeness, the per-batch decomposition on
a successful batch, the failed-batch placeholder contribution, and
all-batches-failed placeholder completeness, each at concrete inputs. -/
theorem getAmazonInfos_completeness_witness :
    (getAmazonInfos envNoKeepa [sampleItem] "NOW" (fun _ => ChunkOutcome.httpError)
        ["B000000001"]).map (fun f => f.asin) = normalizeAsins ["B000000001"]
    ∧ getAmazonInfos envLive [] "" (fun _ => ChunkOutcome.ok (some [sampleProduct]))
        ["B000000001"] =
      (((chunksOf 100 (normalizeAsins ["B000000001"])).enum.map
          (fun p => chunkFacts ((fun _ => ChunkOutcome.ok (some [sampleProduct])) p.1)
            p.2)).flatten)
    ∧ chunkFacts ChunkOutcome.httpError ["B000000001"] =
        ["B000000001"].map placeholderFact
    ∧ getAmazonInfos envLive [] "" (fun _ => ChunkOutcome.httpError) ["B000000001"] =
      (normalizeAsins ["B000000001"]).map placeholderFact := by
  refine ⟨getAmazonInfos_completeness.1 envNoKeepa [sampleItem] "NOW" _ _ rfl,
          getAmazonInfos_completeness.2.1 envLive [] "" _ _ (by decide),
          getAmazonInfos_completeness.2.2.1 ["B000000001"] ChunkOutcome.httpError
            (Or.inl rfl),
          getAmazonInfos_completeness.2.2.2.2.2 envLive [] "" _ _ (by decide)
            (fun j => Or.inl rfl)⟩

theorem createListingsLoop_results (env : Env) (oracle : Nat → Except String String)
    (now : String) (asinIndex : String → Option Nat) :
    ∀ (payloads : List PublishPayload) (n : Nat) (items : List CatalogItem),
    (createListingsLoop env oracle now asinIndex n items payloads).1 =
      (List.enumFrom n payloads).map (fun p => itemResult env oracle p.1 p.2) := by
  intro payloads
  induction payloads with
  | nil => intro n items; rfl
  | cons payload rest ih =>
    intro n items
    by_cases hv : isValidAsin (jsToUpper payload.asin) = true
    · by_cases hc : credsMissing env = true
      · simp [createListingsLoop, itemResult, hv, hc, List.enumFrom, ih]
      · cases ho : oracle n with
        | ok code => simp [createListingsLoop, itemResult, hv, hc, ho, List.enumFrom, ih]
        | error msg => simp [createListingsLoop, itemResult, hv, hc, ho, List.enumFrom, ih]
    · simp [createListingsLoop, itemResult, hv, List.enumFrom, ih]

/-- C2: the publish handler produces exactly one result record per input
item — the results list is pointwise the per-item result function of the
item's payload and its own upstream outcome, so its length equals the
input length and no item's failure influences any other item — and a
payload whose identifier does not match the 10-character alphanumeric
shape yields the `INVALID_ASIN` failure record. -/
theorem createListings_per_item :
    (∀ (env : Env) (oracle : Nat → Except String String) (now : String)
       (items : List CatalogItem) (payloads : List PublishPayload),
       (createListings env oracle now items payloads).1 =
         payloads.enum.map (fun p => itemResult env oracle p.1 p.2))
    ∧ (∀ (env : Env) (oracle : Nat → Except String String) (now : String)
       (items : List CatalogItem) (payloads : List PublishPayload),
       (createListings env oracle now items payloads).1.length = payloads.length)
    ∧ (∀ (env : Env) (oracle : Nat → Except String String) (n : Nat)
       (payload : PublishPayload),
       isValidAsin (jsToUpper payload.asin) = false →
       itemResult env oracle n payload =
         ⟨jsToUpper payload.asin, false, none, msgInvalidAsin, some "INVALID_ASIN"⟩) := by
  have hmain : ∀ (env : Env) (oracle : Nat → Except String String) (now : String)
      (items : List CatalogItem) (payloads : List PublishPayload),
      (createListings env oracle now items payloads).1 =
        payloads.enum.map (fun p => itemResult env oracle p.1 p.2) :=
    fun env oracle now items payloads =>
      createListingsLoop_results env oracle now (buildAsinIndex items) payloads 0 items
  refine ⟨hmain, ?_, ?_⟩
  · intro env oracle now items payloads
    rw [hmain]
    simp [List.enum]
  · intro env oracle n payload h
    simp [itemResult, h]

/-- C2 witness: a malformed identifier yields the `INVALID_ASIN` record,
and a concrete two-item batch (one malformed, one valid) yields two
results. -/
theorem createListings_per_item_witness :
    itemResult envLive (fun _ => Except.error "X") 0 samplePayloadBad =
      ⟨jsToUpper samplePayloadBad.asin, false, none, msgInvalidAsin, some "INVALID_ASIN"⟩
    ∧ (createListings envLive (fun _ => Except.ok "GD1") "T" []
        [samplePayloadBad, samplePayloadGood]).1.length = 2 :=
  ⟨createListings_per_item.2.2 envLive _ 0 samplePayloadBad (by decide),
   createListings_per_item.2.1 envLive _ "T" [] [samplePayloadBad, samplePayloadGood]⟩

theorem probeLoop_httpError (pages : Nat → PageOutcome) (target : List String)
    (page : Nat) (found : List String) (h : pages page = PageOutcome.httpError) :
    ∀ fuel, probeLoop pages target fuel page found = .ok found := by
  intro fuel
  cases fuel with
  | zero => rfl
  | succ fuel =>
    simp only [probeLoop]
    by_cases hcond : page ≤ 10 ∧ found.length < target.length
    · rw [if_pos hcond, h]
    · rw [if_neg hcond]

/-- C3 (amended): during the live-mode existence probe, an HTTP failure
(non-ok response status) while fetching a catalog page stops pagination
and makes the probe return the identifiers found so far without raising —
in particular an HTTP failure on the first page yields the empty set — but
a transport-level failure (the page fetch or its body parse throwing)
propagates an exception to the probe's caller instead of returning the
partial set. -/
theorem getExistingQoo10Asins_page_failure :
    (∀ (pages : Nat → PageOutcome) (target : List String) (page : Nat)
       (found : List String) (fuel : Nat),
       pages page = PageOutcome.httpError →
       probeLoop pages target fuel page found = .ok found)
    ∧ (∀ (env : Env) (items : List CatalogItem) (pages : Nat → PageOutcome)
       (asins : List String),
       credsMissing env = false → pages 1 = PageOutcome.httpError →
       getExistingQoo10Asins env items (.ok ()) pages asins = .ok [])
    ∧ (∀ (env : Env) (items : List CatalogItem) (pages : Nat → PageOutcome)
       (asins : List String),
       credsMissing env = false → pages 1 = PageOutcome.throws →
       normalizeAsins asins ≠ [] →
       getExistingQoo10Asins env items (.ok ()) pages asins = .error ()) := by
  refine ⟨fun pages target page found fuel h => probeLoop_httpError pages target page found h fuel,
          ?_, ?_⟩
  · intro env items pages asins hc h
    unfold getExistingQoo10Asins
    by_cases he : (normalizeAsins asins).isEmpty = true
    · rw [if_pos he]
    · rw [if_neg he, if_neg (by simp [hc])]
      exact probeLoop_httpError pages (normalizeAsins asins) 1 [] h 10
  · intro env items pages asins hc h hne
    unfold getExistingQoo10Asins
    have he : (normalizeAsins asins).isEmpty = false := by
      cases hn : normalizeAsins asins with
      | nil => exact absurd hn hne
      | cons a t => rfl
    rw [if_neg (by simp [he]), if_neg (by simp [hc])]
    have hlen : 0 < (normalizeAsins asins).length := List.length_pos.mpr hne
    show probeLoop pages (normalizeAsins asins) 10 1 [] = .error ()
    simp only [probeLoop]
    rw [if_pos ⟨by omega, by simpa using hlen⟩, h]

/-- C3 counterexample: a transport failure while fetching the first page
makes the probe raise (the claim says it should return the set found so
far, here the empty set, without raising). -/
theorem getExistingQoo10Asins_page_failure_cex :
    getExistingQoo10Asins envLive [] (Except.ok ()) (fun _ => PageOutcome.throws)
      ["B000000001"] = Except.error ()
    ∧ getExistingQoo10Asins envLive [] (Except.ok ()) (fun _ => PageOutcome.throws)
      ["B000000001"] ≠ Except.ok [] := by
  have h0 : getExistingQoo10Asins envLive [] (Except.ok ()) (fun _ => PageOutcome.throws)
      ["B000000001"] = Except.error () := rfl
  refine ⟨h0, ?_⟩
  rw [h0]
  intro hcontra
  exact Except.noConfusion hcontra

/-- C3 witness: concrete instantiations of the three conjuncts. -/
theorem getExistingQoo10Asins_page_failure_witness :
    probeLoop (fun _ => PageOutcome.httpError) ["B000000001"] 5 3 [] = .ok []
    ∧ getExistingQoo10Asins envLive [] (.ok ()) (fun _ => PageOutcome.httpError)
        ["B000000001"] = .ok []
    ∧ getExistingQoo10Asins envLive [] (.ok ()) (fun _ => PageOutcome.throws)
        ["B000000002"] = .error () := by
  refine ⟨getExistingQoo10Asins_page_failure.1 (fun _ => PageOutcome.httpError)
            ["B000000001"] 3 [] 5 rfl,
          getExistingQoo10Asins_page_failure.2.1 envLive [] _ ["B000000001"]
            (by decide) rfl,
          getExistingQoo10Asins_page_failure.2.2 envLive [] _ ["B000000002"]
            (by decide) rfl (by decide)⟩

theorem mem_addToSet {a x : String} {found : List String} :
    a ∈ addToSet found x ↔ a ∈ found ∨ a = x := by
  unfold addToSet
  by_cases hc : found.contains x = true
  · rw [if_pos hc]
    constructor
    · exact Or.inl
    · rintro (h | rfl)
      · exact h
      · exact List.mem_of_elem_eq_true hc
  · rw [if_neg hc]
    simp

theorem mem_scanListing {a : String} {target found : List String} {gd : GoodsInfo}
    (h : a ∈ scanListing target found gd) : a ∈ found ∨ a ∈ target := by
  unfold scanListing at h
  set sc := jsToUpper (gd.sellerCode.getD "") with hsc
  by_cases h0 : sc = ""
  · rw [if_pos h0] at h
    exact Or.inl h
  · rw [if_neg h0] at h
    by_cases h1 : jsStartsWith sc "AMZ-" = true
    · rw [if_pos h1] at h
      by_cases h2 : target.contains (jsSlice sc 4) = true
      · rw [if_pos h2] at h
        rcases mem_addToSet.mp h with h' | rfl
        · exact Or.inl h'
        · exact Or.inr (List.mem_of_elem_eq_true h2)
      · rw [if_neg h2] at h
        exact Or.inl h
    · rw [if_neg h1] at h
      by_cases h2 : target.contains sc = true
      · rw [if_pos h2] at h
        rcases mem_addToSet.mp h with h' | rfl
        · exact Or.inl h'
        · exact Or.inr (List.mem_of_elem_eq_true h2)
      · rw [if_neg h2] at h
        exact Or.inl h

theorem mem_scanPage {a : String} {target : List String} :
    ∀ (items : List GoodsInfo) (found : List String),
    a ∈ scanPage target found items → a ∈ found ∨ a ∈ target := by
  intro items
  induction items with
  | nil => intro found h; exact Or.inl h
  | cons gd rest ih =>
    intro found h
    rcases ih (scanListing target found gd) h with h' | h'
    · exact mem_scanListing h'
    · exact Or.inr h'

theorem probeLoop_subset {a : String} {pages : Nat → PageOutcome} {target : List String} :
    ∀ (fuel page : Nat) (found l : List String),
    (∀ b ∈ found, b ∈ target) →
    probeLoop pages target fuel page found = .ok l →
    a ∈ l → a ∈ target := by
  intro fuel
  induction fuel with
  | zero =>
    intro page found l hf h ha
    simp only [probeLoop, Except.ok.injEq] at h
    subst h
    exact hf a ha
  | succ fuel ih =>
    intro page found l hf h ha
    simp only [probeLoop] at h
    by_cases hcond : page ≤ 10 ∧ found.length < target.length
    · rw [if_pos hcond] at h
      split at h
      · exact Except.noConfusion h
      · injection h with h
        subst h
        exact hf a ha
      · injection h with h
        subst h
        exact hf a ha
      · rename_i items heq
        split at h
        · injection h with h
          subst h
          exact hf a ha
        · refine ih (page + 1) (scanPage target found items) l ?_ h ha
          intro b hb
          rcases mem_scanPage items found hb with h' | h'
          · exact hf b h'
          · exact h'
    · rw [if_neg hcond] at h
      injection h with h
      subst h
      exact hf a ha

/-- C9: every identifier returned by the existence probe — in degraded
mode and in live mode alike — is a member of the canonicalized input set
`normalizeAsins asins`; the probe never reports foreign identifiers found
while paginating. -/
theorem getExistingQoo10Asins_subset :
    ∀ (env : Env) (items : List CatalogItem) (auth : Except Unit Unit)
      (pages : Nat → PageOutcome) (asins : List String) (l : List String),
    getExistingQoo10Asins env items auth pages asins = .ok l →
    ∀ a ∈ l, a ∈ normalizeAsins asins := by
  intro env items auth pages asins l h a ha
  unfold getExistingQoo10Asins at h
  by_cases he : (normalizeAsins asins).isEmpty = true
  · rw [if_pos he] at h
    injection h with h
    subst h
    simp at ha
  · rw [if_neg he] at h
    by_cases hc : credsMissing env = true
    · rw [if_pos hc] at h
      injection h with h
      subst h
      exact (List.mem_filter.mp ha).1
    · rw [if_neg hc] at h
      cases auth with
      | error e => simp at h
      | ok u =>
        simp only at h
        exact probeLoop_subset 10 1 [] l (by simp) h ha

/-- C9 witness: the identifier returned by a concrete live probe run is a
member of the canonicalized input. -/
theorem getExistingQoo10Asins_subset_witness :
    "B000000001" ∈ normalizeAsins ["B000000001", "B000000002"] :=
  getExistingQoo10Asins_subset envLive [] (.ok ()) pagesC8
    ["B000000001", "B000000002"] ["B000000001"] rfl "B000000001" (by decide)

theorem refreshFold (infos : List AmazonInfo) (now : String) :
    ∀ (items : List CatalogItem) (acc : List CatalogItem × Nat),
    items.foldl
      (fun acc it =>
        let asin := jsToUpper it.asin
        match lookupInfo infos asin with
        | none => (acc.1 ++ [it], acc.2)
        | some info => (acc.1 ++ [updateEntry it asin info now], acc.2 + 1)) acc
    = (acc.1 ++ items.map (refreshOne infos now),
       acc.2 + items.countP (fun it => (lookupInfo infos (jsToUpper it.asin)).isSome)) := by
  intro items
  induction items with
  | nil => intro acc; simp
  | cons it rest ih =>
    intro acc
    cases h : lookupInfo infos (jsToUpper it.asin) with
    | none =>
      simp only [List.foldl_cons, h]
      rw [ih]
      simp [refreshOne, h, List.countP_cons]
    | some info =>
      simp only [List.foldl_cons, h]
      rw [ih]
      simp [refreshOne, h, List.countP_cons]
      omega

theorem refreshItems_eq (items : List CatalogItem) (infos : List AmazonInfo) (now : String) :
    refreshItems items infos now =
      (items.map (refreshOne infos now),
       items.countP (fun it => (lookupInfo infos (jsToUpper it.asin)).isSome)) := by
  unfold refreshItems
  rw [refreshFold infos now items ([], 0)]
  simp

/-- C4 (amended): for every catalog entry with a matching fetched fact the
refresh merge overwrites the timestamp and the in-stock flag, overwrites
the price with the fetched price only when that price is non-zero
(otherwise the previous price is kept), overwrites the image only when a
fetched image is present (otherwise the previous image is kept), keeps the
existing display name when non-empty (filling it from the fetched title,
then the identifier, only when empty), and stores no expedited/ship-days
fields at all; entries without a matching fact are left untouched; no
entry is ever removed (the output catalog has the same length, entries at
the same positions); and the returned count is the number of entries with
a matching fact. -/
theorem refreshItems_merge :
    (∀ (items : List CatalogItem) (infos : List AmazonInfo) (now : String),
       (refreshItems items infos now).1.length = items.length)
    ∧ (∀ (items : List CatalogItem) (infos : List AmazonInfo) (now : String)
         (i : Nat) (it : CatalogItem),
       items[i]? = some it → lookupInfo infos (jsToUpper it.asin) = none →
       (refreshItems items infos now).1[i]? = some it)
    ∧ (∀ (items : List CatalogItem) (infos : List AmazonInfo) (now : String)
         (i : Nat) (it : CatalogItem) (info : AmazonInfo),
       items[i]? = some it → lookupInfo infos (jsToUpper it.asin) = some info →
       (refreshItems items infos now).1[i]? =
           some (updateEntry it (jsToUpper it.asin) info now)
         ∧ (updateEntry it (jsToUpper it.asin) info now).updatedAt = now
         ∧ (updateEntry it (jsToUpper it.asin) info now).inStock = decide (0 < info.price)
         ∧ (updateEntry it (jsToUpper it.asin) info now).amazonPrice =
             (if info.price ≠ 0 then info.price else it.amazonPrice)
         ∧ (updateEntry it (jsToUpper it.asin) info now).name =
             jsOrS it.name (jsOrS info.title (jsToUpper it.asin))
         ∧ (updateEntry it (jsToUpper it.asin) info now).mainImage =
             jsOrOpt info.image it.mainImage)
    ∧ (∀ (items : List CatalogItem) (infos : List AmazonInfo) (now : String),
       (refreshItems items infos now).2 =
         items.countP (fun it => (lookupInfo infos (jsToUpper it.asin)).isSome)) := by
  refine ⟨?_, ?_, ?_, ?_⟩
  · intro items infos now
    rw [refreshItems_eq]
    simp
  · intro items infos now i it hi h
    rw [refreshItems_eq]
    simp only [List.getElem?_map, hi, Option.map_some']
    simp [refreshOne, h]
  · intro items infos now i it info hi h
    refine ⟨?_, rfl, rfl, rfl, rfl, rfl⟩
    rw [refreshItems_eq]
    simp only [List.getElem?_map, hi, Option.map_some']
    simp [refreshOne, h]
  · intro items infos now
    rw [refreshItems_eq]

/-- C4 counterexample: a matched catalog entry with an existing non-empty
display name keeps it — the fetched fact's title `"NEW"` is not written,
so the claim that the title field is overwritten for every matched entry
is false. -/
theorem refreshItems_merge_cex :
    ((refreshItems [sampleItem] [sampleInfo] "T2").1.map (fun e => e.name)) = ["OLD"]
    ∧ sampleInfo.title = "NEW" ∧ ("OLD" : String) ≠ "NEW" := by
  refine ⟨rfl, rfl, by decide⟩

/-- C4 witness: an unmatched entry is untouched and a matched entry is the
in-place update, at concrete inputs. -/
theorem refreshItems_merge_witness :
    (refreshItems [sampleItem] [] "T2").1[0]? = some sampleItem
    ∧ (refreshItems [sampleItem] [sampleInfo] "T2").1[0]? =
        some (updateEntry sampleItem (jsToUpper sampleItem.asin) sampleInfo "T2") :=
  ⟨refreshItems_merge.2.1 [sampleItem] [] "T2" 0 sampleItem rfl rfl,
   (refreshItems_merge.2.2.1 [sampleItem] [sampleInfo] "T2" 0 sampleItem sampleInfo rfl
      (by decide)).1⟩

/-- C10: after the refresh merge, every matched catalog entry's in-stock
flag equals "fetched price is positive"; when the fetched price is zero
(as in the placeholder fact produced for a failed upstream batch) the
entry is marked out of stock while its stored price keeps its previous
value. -/
theorem refreshItems_inStock :
    ∀ (items : List CatalogItem) (infos : List AmazonInfo) (now : String)
      (i : Nat) (it : CatalogItem) (info : AmazonInfo),
    items[i]? = some it → lookupInfo infos (jsToUpper it.asin) = some info →
    (((refreshItems items infos now).1[i]?).map (fun e => e.inStock) =
        some (decide (0 < info.price))
      ∧ (info.price = 0 →
         ((refreshItems items infos now).1[i]?).map (fun e => e.amazonPrice) =
           some it.amazonPrice)
      ∧ (∀ a, info = placeholderFact a →
         ((refreshItems items infos now).1[i]?).map (fun e => (e.inStock, e.amazonPrice)) =
           some (false, it.amazonPrice))) := by
  intro items infos now i it info hi h
  have hget : (refreshItems items infos now).1[i]? =
      some (updateEntry it (jsToUpper it.asin) info now) := by
    rw [refreshItems_eq]
    simp only [List.getElem?_map, hi, Option.map_some']
    simp [refreshOne, h]
  refine ⟨by rw [hget]; rfl, ?_, ?_⟩
  · intro hz
    rw [hget]
    simp [updateEntry, hz]
  · intro a ha
    subst ha
    rw [hget]
    simp [updateEntry, placeholderFact]

/-- C10 witness: a zero-price placeholder fact marks the concrete matched
entry out of stock and keeps its stored price. -/
theorem refreshItems_inStock_witness :
    (((refreshItems [sampleItem] [placeholderFact "B000000001"] "T2").1[0]?).map
        (fun e => (e.inStock, e.amazonPrice))) = some (false, sampleItem.amazonPrice) :=
  (refreshItems_inStock [sampleItem] [placeholderFact "B000000001"] "T2" 0 sampleItem
      (placeholderFact "B000000001") rfl (by decide)).2.2 "B000000001" rfl

theorem jsStartsWith_iff (s p : String) :
    jsStartsWith s p = true ↔ ∃ r : String, s = p ++ r := by
  unfold jsStartsWith
  rw [charIsPrefixOf_iff]
  constructor
  · rintro ⟨t, ht⟩
    exact ⟨⟨t⟩, string_data_inj (by rw [string_data_append]; exact ht)⟩
  · rintro ⟨r, rfl⟩
    exact ⟨r.data, by rw [string_data_append]⟩

theorem jsSlice_amz (r : String) : jsSlice ("AMZ-" ++ r) 4 = r := by
  apply string_data_inj
  show (("AMZ-" ++ r).data).drop 4 = r.data
  rw [string_data_append]
  have h4 : ("AMZ-" : String).data.length = 4 := rfl
  rw [← h4, List.drop_left]

theorem amz_cancel {a b : String} (h : ("AMZ-" ++ a) = ("AMZ-" ++ b)) : a = b := by
  apply string_data_inj
  have hd := congrArg String.data h
  rw [string_data_append, string_data_append] at hd
  exact List.append_cancel_left hd

theorem valid_ne_amz {a : String} (r : String) (hv : isValidAsin a = true) :
    a ≠ "AMZ-" ++ r := by
  intro h
  apply isValidAsin_no_hyphen hv
  rw [h, string_data_append]
  exact List.mem_append.mpr (Or.inl (by decide))

theorem valid_ne_empty {a : String} (hv : isValidAsin a = true) : a ≠ "" := by
  intro h
  have hl := isValidAsin_length hv
  rw [h] at hl
  simp at hl

theorem empty_ne_amz (r : String) : ("" : String) ≠ "AMZ-" ++ r := by
  intro h
  have hd := congrArg String.data h
  rw [string_data_append] at hd
  have hlen := congrArg List.length hd
  rw [List.length_append] at hlen
  have h4 : ("AMZ-" : String).data.length = 4 := rfl
  rw [h4] at hlen
  have h0 : (("" : String).data).length = 0 := rfl
  rw [h0] at hlen
  omega

/-- C8: during the live existence probe's page scan, an identifier is
marked as existing by a listing iff it was already found or it belongs to
the target set and the listing's uppercased seller code either equals
`"AMZ-"` followed by the identifier or (legacy case) equals the identifier
itself; and on the concrete page with seller codes `AMZ-B000000001` and
`OTHER-X` against targets `B000000001`, `B000000002` the probe returns
exactly `B000000001`. -/
theorem findExisting_membership :
    (∀ (target found : List String) (gd : GoodsInfo) (a : String),
       (∀ t ∈ target, isValidAsin t = true) →
       (a ∈ scanListing target found gd ↔
         a ∈ found ∨ (a ∈ target ∧
           (jsToUpper (gd.sellerCode.getD "") = "AMZ-" ++ a ∨
            jsToUpper (gd.sellerCode.getD "") = a))))
    ∧ getExistingQoo10Asins envLive [] (.ok ()) pagesC8 ["B000000001", "B000000002"] =
        .ok ["B000000001"] := by
  constructor
  · intro target found gd a htarget
    simp only [scanListing]
    set sc := jsToUpper (gd.sellerCode.getD "") with hsc
    by_cases h0 : sc = ""
    · rw [if_pos h0]
      constructor
      · exact Or.inl
      · rintro (h | ⟨hmem, hcase | hcase⟩)
        · exact h
        · rw [h0] at hcase
          exact absurd hcase (empty_ne_amz a)
        · rw [h0] at hcase
          exact absurd hcase.symm (valid_ne_empty (htarget a hmem))
    · rw [if_neg h0]
      by_cases h1 : jsStartsWith sc "AMZ-" = true
      · obtain ⟨r, hr⟩ := (jsStartsWith_iff sc "AMZ-").mp h1
        rw [if_pos h1]
        have hslice : jsSlice sc 4 = r := by rw [hr]; exact jsSlice_amz r
        rw [hslice]
        by_cases h2 : target.contains r = true
        · rw [if_pos h2]
          rw [mem_addToSet]
          constructor
          · rintro (h | rfl)
            · exact Or.inl h
            · exact Or.inr ⟨List.mem_of_elem_eq_true h2, Or.inl hr⟩
          · rintro (h | ⟨hmem, hcase | hcase⟩)
            · exact Or.inl h
            · rw [hr] at hcase
              exact Or.inr (amz_cancel hcase).symm
            · rw [hr] at hcase
              exact absurd hcase.symm (valid_ne_amz r (htarget a hmem))
        · rw [if_neg h2]
          constructor
          · exact Or.inl
          · rintro (h | ⟨hmem, hcase | hcase⟩)
            · exact h
            · rw [hr] at hcase
              have har : r = a := amz_cancel hcase
              rw [har] at h2
              exact absurd (List.elem_eq_true_of_mem hmem) h2
            · rw [hr] at hcase
              exact absurd hcase.symm (valid_ne_amz r (htarget a hmem))
      · rw [if_neg h1]
        by_cases h2 : target.contains sc = true
        · rw [if_pos h2]
          rw [mem_addToSet]
          constructor
          · rintro (h | rfl)
            · exact Or.inl h
            · exact Or.inr ⟨List.mem_of_elem_eq_true h2, Or.inr rfl⟩
          · rintro (h | ⟨hmem, hcase | hcase⟩)
            · exact Or.inl h
            · exact absurd ((jsStartsWith_iff sc "AMZ-").mpr ⟨a, hcase⟩) h1
            · exact Or.inr hcase.symm
        · rw [if_neg h2]
          constructor
          · exact Or.inl
          · rintro (h | ⟨hmem, hcase | hcase⟩)
            · exact h
            · exact absurd ((jsStartsWith_iff sc "AMZ-").mpr ⟨a, hcase⟩) h1
            · rw [← hcase] at hmem
              exact absurd (List.elem_eq_true_of_mem hmem) h2
  · rfl

/-- C8 witness: the membership characterization instantiated at the
concrete listing `AMZ-B000000001`. -/
theorem findExisting_membership_witness :
    "B000000001" ∈ scanListing ["B000000001", "B000000002"] []
        ⟨some "AMZ-B000000001"⟩ ↔
      "B000000001" ∈ ([] : List String) ∨
        ("B000000001" ∈ ["B000000001", "B000000002"] ∧
          (jsToUpper ((⟨some "AMZ-B000000001"⟩ : GoodsInfo).sellerCode.getD "") =
              "AMZ-" ++ "B000000001" ∨
           jsToUpper ((⟨some "AMZ-B000000001"⟩ : GoodsInfo).sellerCode.getD "") =
              "B000000001")) :=
  findExisting_membership.1 ["B000000001", "B000000002"] [] ⟨some "AMZ-B000000001"⟩
    "B000000001" (by decide)

end Qeasy
